import Mathlib

/-!
Shallow embedding of the TruckHacking py-hv-networks J1587/J1708 driver
(src/hv_networks/J1587Driver.py and src/hv_networks/J1708Driver.py) and
proofs about its transport-layer behaviour.

Conventions:
- Python `bytes` values are modelled as `List Nat` (each element a byte).
- Python `x & 0xFF` is written `x % 256`, `(x & 0xFF00) >> 8` is `x / 256 % 256`
  (identical on naturals).
- A Python call that raises an exception is modelled by an `Option`/flag
  result (`none` / a `crashed` constructor).
- Python's signed arithmetic in the checksum (`~x + 1`) is modelled on `Int`,
  where `~x = -x - 1`.
-/

namespace HvNetworks

/-! ## J1708Driver.py: checksum and prepare_message -/

/-- `toSignedChar` (J1708Driver.py line 32): reinterpret the low byte of an
integer as a signed char, as `struct.unpack('b', struct.pack('B', num & 0xFF))`
does. -/
def toSignedChar (num : Int) : Int :=
  let u := num % 256
  if u ≥ 128 then u - 256 else u

/-- `checksum` (J1708Driver.py line 39):
`toSignedChar(~reduce(lambda x,y: (x + y) & 0xFF, list(msg)) + 1)`.
`functools.reduce` with no initializer raises `TypeError` on an empty
sequence, modelled by `none`.  On `x :: xs` the reduction starts from `x`
and folds `(a + b) & 0xFF` over the rest. -/
def checksum? (msg : List Nat) : Option Int :=
  match msg with
  | [] => none
  | x :: xs =>
    let red := xs.foldl (fun a b => (a + b) % 256) x
    some (toSignedChar (-(red : Int) - 1 + 1))

/-- `J1708Driver.prepare_message` (J1708Driver.py line 96): when
`has_checksum` is false, append `struct.pack('b', checksum(msg))`, whose
single byte is the checksum value taken mod 256. -/
def prepare_message? (buf : List Nat) (has_checksum : Bool) : Option (List Nat) :=
  if has_checksum then some buf
  else
    match checksum? buf with
    | none => none
    | some c => some (buf ++ [(c % 256).toNat])

/-- Checksum verification as J1587WorkerThread.run performs it
(J1587Driver.py lines 516-517): recompute the checksum over all bytes but
the last and compare with the last byte. -/
def verify? (msg : List Nat) : Option Bool :=
  match prepare_message? msg.dropLast false with
  | none => none
  | some prepared =>
    match prepared.getLast?, msg.getLast? with
    | some t, some l => some (decide (t = l))
    | _, _ => none

/-! ## J1587Driver.py: frame codec -/

def RTS : Nat := 1
def CTS : Nat := 2
def EOM : Nat := 3
def RSD : Nat := 4
def ABORT : Nat := 255
def MGMT_PID : Nat := 197
def DAT_PID : Nat := 198
def MULTISECTION_PID : Nat := 192

/-- `RTS_FRAME.to_buffer` (J1587Driver.py lines 69-70). -/
def rtsBuffer (src dst segments length : Nat) : List Nat :=
  [src, MGMT_PID, 5, dst, RTS, segments, length % 256, length / 256 % 256]

/-- `CTS_FRAME.to_buffer` (J1587Driver.py lines 78-79). -/
def ctsBuffer (src dst num_segments next_segment : Nat) : List Nat :=
  [src, MGMT_PID, 4, dst, CTS, num_segments, next_segment]

/-- `EOM_FRAME.to_buffer` (J1587Driver.py lines 85-86). -/
def eomBuffer (src dst : Nat) : List Nat :=
  [src, MGMT_PID, 2, dst, EOM]

/-- `ABORT_FRAME.to_buffer` (J1587Driver.py lines 101-102). -/
def abortBuffer (src dst : Nat) : List Nat :=
  [src, MGMT_PID, 2, dst, ABORT]

/-- Parsed connection-management frame (`parse_conn_frame`,
J1587Driver.py lines 105-126).  `none` models the raised
"unrecognized conn_mgmt command code" exception. -/
inductive ConnFrame where
  | rts (src dst num_segments total_bytes : Nat)
  | cts (src dst num_segments next_segment : Nat)
  | eom (src dst : Nat)
  | rsd (src dst request : Nat)
  | abort (src dst : Nat)
deriving DecidableEq

def parse_conn_frame (buf : List Nat) : Option ConnFrame :=
  let src := buf.getD 0 0
  let dst := buf.getD 3 0
  let cm := buf.getD 4 0
  if cm = RTS then
    some (.rts src dst (buf.getD 5 0) (buf.getD 7 0 * 256 + buf.getD 6 0))
  else if cm = CTS then
    some (.cts src dst (buf.getD 5 0) (buf.getD 6 0))
  else if cm = EOM then
    some (.eom src dst)
  else if cm = RSD then
    some (.rsd src dst (buf.getD 6 0 * 256 + buf.getD 5 0))
  else if cm = ABORT then
    some (.abort src dst)
  else none

/-- `is_conn_frame` (J1587Driver.py line 128). -/
def is_conn_frame (buf : List Nat) : Bool :=
  5 ≤ buf.length && buf.getD 1 0 == MGMT_PID

/-- `is_rts_frame` (J1587Driver.py line 131). -/
def is_rts_frame (buf : List Nat) : Bool :=
  is_conn_frame buf && buf.getD 4 0 == RTS

/-- `is_abort_frame` (J1587Driver.py line 134). -/
def is_abort_frame (buf : List Nat) : Bool :=
  is_conn_frame buf && buf.getD 4 0 == ABORT

/-- `conn_mode_transfer_frame` (J1587Driver.py lines 138-146). -/
structure DataFrame where
  src : Nat
  dst : Nat
  segment_id : Nat
  segment_data : List Nat
deriving DecidableEq

/-- `conn_mode_transfer_frame.to_buffer` (J1587Driver.py lines 145-146). -/
def DataFrame.to_buffer (f : DataFrame) : List Nat :=
  f.src :: DAT_PID :: (2 + f.segment_data.length) :: f.dst :: f.segment_id :: f.segment_data

/-- `parse_data_frame` (J1587Driver.py lines 148-155). -/
def parse_data_frame (buf : List Nat) : DataFrame :=
  ⟨buf.getD 0 0, buf.getD 3 0, buf.getD 4 0, buf.drop 5⟩

/-- `is_data_frame` (J1587Driver.py line 157). -/
def is_data_frame (buf : List Nat) : Bool :=
  6 ≤ buf.length && buf.getD 1 0 == DAT_PID

/-! ## J1587SendSession (J1587Driver.py lines 241-317)

The session thread is modelled as a function of the sequence of raw
messages handed to it through its `in_queue` (by `give`).  All puts on
`out_queue` in the source are guarded by `if self.out_queue:`; the
parameter `oq` records whether the queue is present (`None` is passed
when the driver is silent, J1587Driver.py line 649). -/

/-- The payload chopping loop (J1587Driver.py lines 258-261): take 15
bytes at a time. -/
def chop15 (msg : List Nat) : List (List Nat) :=
  if h : msg = [] then []
  else msg.take 15 :: chop15 (msg.drop 15)
termination_by msg.length
decreasing_by
  simp only [List.length_drop]
  exact Nat.sub_lt (List.length_pos.mpr h) (by omega)

/-- The frame-packaging loop (J1587Driver.py lines 263-268): number the
chunks starting at `i`. -/
def mk_data_frames (src dst : Nat) : Nat → List (List Nat) → List DataFrame
  | _, [] => []
  | i, el :: rest => ⟨src, dst, i, el⟩ :: mk_data_frames src dst (i + 1) rest

/-- The data frames a send session builds for payload `msg`
(J1587Driver.py lines 254-268, `i` starts at 1). -/
def sendDataFrames (src dst : Nat) (msg : List Nat) : List DataFrame :=
  mk_data_frames src dst 1 (chop15 msg)

/-- Python sequence indexing `l[i]` for `int` indices: a negative index
`-k` addresses `l[len l - k]`; out-of-range access raises `IndexError`
(modelled by `none`). -/
def pyIdx (l : List DataFrame) (i : Int) : Option DataFrame :=
  if 0 ≤ i then l[i.toNat]?
  else if (-i).toNat ≤ l.length then l[l.length - (-i).toNat]?
  else none

/-- The CTS emission loop (J1587Driver.py lines 303-306):
`for i in range(count): if out_queue: out_queue.put(data_frames[base+i].to_buffer())`,
unrolled from the front.  Returns the emitted buffers and whether an
`IndexError` was raised (when `oq` is false the indexing expression is
never evaluated, so no error can occur). -/
def putDataFrames (oq : Bool) (frames : List DataFrame) (base : Int) : Nat → List (List Nat) × Bool
  | 0 => ([], false)
  | k + 1 =>
    if oq then
      match pyIdx frames base with
      | none => ([], true)
      | some f =>
        let r := putDataFrames oq frames (base + 1) k
        (f.to_buffer :: r.1, r.2)
    else putDataFrames oq frames (base + 1) k

/-- How a send session ends. -/
inductive SendOutcome where
  | success   -- `eom_recvd` was set, so `success.set()` runs
  | failed    -- loop left by ABORT or with no further inbound messages
  | crashed   -- an uncaught exception killed the thread
deriving DecidableEq

/-- The send loop (J1587Driver.py lines 284-311) over the messages handed
to the session, in order.  An exhausted message list models the 10-second
deadline expiring with nothing more arriving. -/
def sendLoop (oq : Bool) (frames : List DataFrame) : List (List Nat) → List (List Nat) × SendOutcome
  | [] => ([], .failed)
  | msg :: rest =>
    if ¬ is_conn_frame msg then ([], .crashed)  -- raise Exception (line 294)
    else
      match parse_conn_frame msg with
      | some (.eom _ _) => ([], .success)       -- eom_recvd = True, loop exits
      | some (.abort _ _) => ([], .failed)      -- break
      | some (.cts _ _ k b) =>
        let r := putDataFrames oq frames ((b : Int) - 1) k
        if r.2 then (r.1, .crashed)
        else
          let r2 := sendLoop oq frames rest
          (r.1 ++ r2.1, r2.2)
      | some _ => sendLoop oq frames rest       -- RTS or RSD: pass (line 308)
      | none => ([], .crashed)                  -- parse_conn_frame raised

structure SendResult where
  outputs : List (List Nat)
  outcome : SendOutcome
deriving DecidableEq

/-- `J1587SendSession.run` (J1587Driver.py lines 253-311), as a function
of the inbound message sequence.  `parent_stopped` is taken as never set
(the claims concern a running driver). -/
def sendSessionRun (oq : Bool) (src dst : Nat) (msg : List Nat) (preempt : Bool)
    (inbound : List (List Nat)) : SendResult :=
  let data_frames := sendDataFrames src dst msg
  let rts := rtsBuffer src dst data_frames.length msg.length
  let rtsOut := if oq then [rts] else []
  if preempt then
    ⟨rtsOut ++ (if oq then data_frames.map DataFrame.to_buffer else []), .success⟩
  else
    let r := sendLoop oq data_frames inbound
    ⟨rtsOut ++ r.1, r.2⟩

/-- `J1587WorkerThread.transport_send` (J1587Driver.py lines 645-655)
raises `TimeoutException` exactly when the session did not set `success`. -/
def transport_send_raises (r : SendResult) : Bool :=
  r.outcome ≠ .success

/-! ## J1587TransportReceiveSession (J1587Driver.py lines 161-238)

The session is modelled as a function of the sequence of raw messages
handed to it through its `in_queue`.  The `queue.Empty` branch
(CTS retransmission after a 2-second silence, lines 186-194) is not
exercised by the claims: the modelled runs always have a message
available.  `oq` again records whether `out_queue` is present. -/

/-- How the collection loop (lines 182-212) ends. -/
inductive RecvEnd where
  | completed  -- loop condition `None in segment_buffer` became false
  | aborted    -- `break` on an inbound ABORT frame (line 199)
  | exhausted  -- no further inbound message (models the 60 s deadline)
  | crashed    -- the `raise Exception` branch (line 212)
deriving DecidableEq

/-- The collection loop.  Returns the final segment buffer, the buffers
put on `out_queue` during the loop, and how the loop ended.  Note the
`is_conn_frame` branch (lines 202-207): its `for i in range(3)` body ends
in `break`, so it puts the ABORT buffer once and the while-loop
continues. -/
def recvLoop (oq : Bool) (my other : Nat) :
    List (Option (List Nat)) → List (List Nat) →
    List (Option (List Nat)) × List (List Nat) × RecvEnd
  | buf, [] =>
    if none ∉ buf then (buf, [], .completed) else (buf, [], .exhausted)
  | buf, msg :: rest =>
    if none ∉ buf then (buf, [], .completed)
    else if is_abort_frame msg then (buf, [], .aborted)
    else if is_rts_frame msg then recvLoop oq my other buf rest
    else if is_conn_frame msg then
      let r := recvLoop oq my other buf rest
      (r.1, (if oq then [abortBuffer my other] else []) ++ r.2.1, r.2.2)
    else if is_data_frame msg then
      let dat := parse_data_frame msg
      recvLoop oq my other (buf.set (dat.segment_id - 1) (some dat.segment_data)) rest
    else (buf, [], .crashed)

/-- `J1587WorkerThread.message_received` (J1587Driver.py lines 538-541):
strip the trailing checksum byte when present, then put on the mailbox. -/
def message_received (msg : List Nat) (has_checksum : Bool) : List Nat :=
  if has_checksum then msg.dropLast else msg

structure RecvResult where
  outputs : List (List Nat)          -- everything put on out_queue, in order
  delivered : Option (List Nat)      -- the message put on the mailbox, if any
  endState : RecvEnd
deriving DecidableEq

/-- `J1587TransportReceiveSession.run` (J1587Driver.py lines 172-232) as a
function of the inbound message sequence.  The session is created from the
raw RTS (`parse_conn_frame(rts_raw)`, line 164); `my_mid` is its `dst` and
`other_mid` its `src` (lines 165-166). -/
def recvSessionRun (oq : Bool) (rts_raw : List Nat) (inbound : List (List Nat)) : RecvResult :=
  match parse_conn_frame rts_raw with
  | some (.rts src dst segments _length) =>
    let my := dst
    let other := src
    let buf0 : List (Option (List Nat)) := List.replicate segments none
    let ctsOut := if oq then [ctsBuffer my other segments 1] else []
    let r := recvLoop oq my other buf0 inbound
    match r.2.2 with
    | .crashed => ⟨ctsOut ++ r.2.1, none, .crashed⟩
    | e =>
      if none ∈ r.1 then
        -- timed out with gaps: ABORT x3 (lines 217-222), no delivery
        ⟨ctsOut ++ r.2.1 ++ (if oq then List.replicate 3 (abortBuffer my other) else []),
         none, e⟩
      else
        -- complete: EOM x3 (lines 224-227) and deliver
        -- `bytes([other_mid]) ++ concatenated segment data` (lines 228-232)
        ⟨ctsOut ++ r.2.1 ++ (if oq then List.replicate 3 (eomBuffer my other) else []),
         some (message_received (other :: (r.1.map (fun o => o.getD [])).flatten) false), e⟩
  | _ => ⟨[], none, .crashed⟩

/-! ## Transport session index (J1587Driver.py lines 543-601)

`transport_sessions` is a Python dict keyed by an `(src, dst)` pair taken
"wrt send sessions" (comments at lines 543 and 547).  It is modelled as an
association list with dict update semantics. -/

inductive SessionKind where
  | send
  | recv
deriving DecidableEq

abbrev SessionIndex := List ((Nat × Nat) × SessionKind)

/-- `J1587WorkerThread.get_transport_session` (lines 544-545). -/
def get_transport_session (idx : SessionIndex) (src dst : Nat) : Option SessionKind :=
  match idx.find? (fun e => e.1 = (src, dst)) with
  | some e => some e.2
  | none => none

/-- `J1587WorkerThread.update_transport_session` (lines 548-549):
`dict.update` replaces the value at an existing key, otherwise adds the
key. -/
def update_transport_session (idx : SessionIndex) (src dst : Nat) (v : SessionKind) :
    SessionIndex :=
  match idx with
  | [] => [((src, dst), v)]
  | e :: rest =>
    if e.1 = (src, dst) then ((src, dst), v) :: rest
    else e :: update_transport_session rest src dst v

/-- The key under which `transport_send` (line 651) registers a send
session: `(my_mid, dst)`. -/
def sendSessionKey (my_mid dst : Nat) : Nat × Nat := (my_mid, dst)

/-- The key under which `handle_transport_message` (lines 585-597)
registers and looks up the session for an inbound frame: `(dst, src)` of
the frame, so for the receive session spawned by an RTS it is
`(rts.dst, rts.src)`. -/
def recvSessionKey (frame : List Nat) : Nat × Nat :=
  (frame.getD 3 0, frame.getD 0 0)

/-- What `J1587WorkerThread.handle_transport_message` (lines 585-601) does
with an inbound transport frame (sessions present in the index are taken
to be alive). -/
inductive RouteAction where
  | toExisting (key : Nat × Nat)   -- known_session.give(msg)
  | spawnRecv (key : Nat × Nat)    -- new J1587TransportReceiveSession stored at key
  | sendAbort (src : Nat)          -- ABORT_FRAME(my_mid, src) put when not silent
deriving DecidableEq

def handle_transport_message (idx : SessionIndex) (dst src : Nat) (msg : List Nat) :
    RouteAction :=
  match get_transport_session idx dst src with
  | some _ => .toExisting (dst, src)
  | none =>
    if is_rts_frame msg then .spawnRecv (dst, src)
    else .sendAbort src

/-! ## Multisection reassembler (J1587Driver.py lines 551-558 and 603-637) -/

/-- The `SimpleNamespace` session value (line 612). -/
structure MsSession where
  target_len : Nat
  last_seen_section : Nat
  acc_bytes : List Nat
deriving DecidableEq

abbrev MsDict := List ((Nat × Nat) × MsSession)

/-- `get_multisection_session` (lines 557-558). -/
def get_multisection_session (d : MsDict) (k : Nat × Nat) : Option MsSession :=
  match d.find? (fun e => e.1 = k) with
  | some e => some e.2
  | none => none

/-- `update_multisection_session` (lines 551-552), dict update semantics. -/
def update_multisection_session (d : MsDict) (k : Nat × Nat) (v : MsSession) : MsDict :=
  match d with
  | [] => [(k, v)]
  | e :: rest =>
    if e.1 = k then (k, v) :: rest
    else e :: update_multisection_session rest k v

/-- `clear_multisection_session` (lines 554-555): `dict.pop(key)` (only
called on keys just looked up, so the KeyError case is unreachable). -/
def clear_multisection_session (d : MsDict) (k : Nat × Nat) : MsDict :=
  d.filter (fun e => ¬ e.1 = k)

/-- `J1587WorkerThread.handle_multisection_message` (lines 603-637).
Returns the updated dict and the messages delivered to the mailbox
(via `message_received(_, has_checksum=False)`), or `none` for the
`IndexError` raised by `msg_no_checksum[5]` on a length-5 section-0
frame (line 612). -/
def handle_multisection_message (d : MsDict) (m : List Nat) :
    Option (MsDict × List (List Nat)) :=
  if m.length < 5 then some (d, [message_received m false])
  else
    let src := m.getD 0 0
    let target_pid := m.getD 3 0
    let section_final := m.getD 4 0 / 16 % 16   -- (m[4] & 0xF0) >> 4
    let section_this := m.getD 4 0 % 16         -- m[4] & 0x0F
    if section_this = 0 then
      if 5 < m.length then
        some (update_multisection_session d (src, target_pid)
                ⟨m.getD 5 0, 0, m.drop 6⟩, [])
      else none
    else
      match get_multisection_session d (src, target_pid) with
      | none => some (d, [message_received m false])
      | some s =>
        if s.last_seen_section + 1 ≠ section_this then
          some (clear_multisection_session d (src, target_pid), [message_received m false])
        else
          let acc := s.acc_bytes ++ m.drop 5
          if section_this = section_final ∧ acc.length = s.target_len then
            some (clear_multisection_session d (src, target_pid),
                  [message_received (src :: target_pid :: acc.length :: acc) false])
          else
            some (update_multisection_session d (src, target_pid)
                    ⟨s.target_len, section_this, acc⟩, [])

/-- Feed a sequence of (checksum-stripped) PID-192 frames through the
reassembler, collecting deliveries. -/
def runMultisection (d : MsDict) : List (List Nat) → Option (MsDict × List (List Nat))
  | [] => some (d, [])
  | m :: rest =>
    match handle_multisection_message d m with
    | none => none
    | some (d1, out1) =>
      match runMultisection d1 rest with
      | none => none
      | some (d2, out2) => some (d2, out1 ++ out2)

/-! ## Worker spine: inbound checksum check and outbound dispatch
(J1587WorkerThread.run, J1587Driver.py lines 510-536) -/

/-- Outcome of the `InOutTags.Read` branch for one inbound buffer. -/
inductive ReadOutcome where
  | dropped                    -- bad checksum, pass_invalid_messages false
  | toHandler (m : List Nat)   -- checksum ok: handle_message(msg)
  | crashed                    -- an uncaught exception killed the worker thread
deriving DecidableEq

/-- Lines 515-521.  `test_checksum` recomputes the checksum over
`msg[:-1]`; on an empty or single-byte message that recomputation raises
`TypeError` (empty `reduce`).  When the checksum does not match and
`pass_invalid_messages` is true the source calls `self.message_received(msg)`
— but `message_received(self, msg, has_checksum)` has no default for
`has_checksum`, so the call raises `TypeError` and the worker thread dies:
the frame is never delivered. -/
def worker_read_step (pass_invalid : Bool) (msg : List Nat) : ReadOutcome :=
  match prepare_message? msg.dropLast false with
  | none => .crashed
  | some prepared =>
    match prepared.getLast?, msg.getLast? with
    | some test_checksum, some last =>
      if test_checksum ≠ last then
        if pass_invalid then .crashed   -- BUG: message_received(msg) misses has_checksum
        else .dropped
      else .toHandler msg
    | _, _ => .crashed

/-- Queue tags (`InOutTags`, lines 475-477). -/
inductive Tag where
  | send
  | read
deriving DecidableEq

/-- `J1587Driver.send_message` → `J1587WorkerThread.send_message`
(lines 642-643): the frame is put on `send_queue` — i.e. `uni_queue`
tagged `Send` — with no check of `silent`. -/
def facade_send_enqueue (msg : List Nat) : List (Tag × List Nat) :=
  [(.send, msg)]

/-- The transmission decisions of `J1587WorkerThread.run` (lines 510-536)
over the tagged items drained from `uni_queue`: a `Send`-tagged frame is
always handed to `J1708WorkerThread.send_message` — the `silent` flag is
not consulted anywhere in this loop — and a `Read`-tagged frame never
transmits directly (session replies reach the wire only as later
`Send`-tagged items).  Returns the frames transmitted. -/
def worker_run_transmissions (silent : Bool) : List (Tag × List Nat) → List (List Nat)
  | [] => []
  | (.send, m) :: rest => m :: worker_run_transmissions silent rest
  | (.read, _) :: rest => worker_run_transmissions silent rest

/-- The ABORT reply of `handle_transport_message` (lines 598-601) is the
one spine-originated frame, and it is gated on `silent`. -/
def spine_abort_reply (silent : Bool) (my_mid src : Nat) : List (List Nat) :=
  if silent then [] else [abortBuffer my_mid src]

/-- The out-queue handed to sessions (lines 592-593 and 648-650):
`None if self.silent else self.send_queue`. -/
def session_out_queue_present (silent : Bool) : Bool :=
  !silent

/-! ## J1587Driver.request_pid (J1587Driver.py lines 724-750)

Wall-clock time is modelled in milliseconds; each `read_message()` call is
an event carrying the message returned and the clock value observed right
after it returns (`read_message` with no timeout blocks until a message
exists, so an exhausted event list models blocking forever). -/

structure ReadEvent where
  msg : List Nat
  now : Nat
deriving DecidableEq

/-- The predicate of the inner polling loop (line 743):
`len(response) > 2 and response[0] == mid and response[1] == pid`. -/
def responseMatches (mid pid : Nat) (m : List Nat) : Bool :=
  2 < m.length && m.getD 0 0 == mid && m.getD 1 0 == pid

/-- The inner polling loop (lines 742-744): one unconditional read, then
re-read while the response does not match and less than 20 ms have passed
since the request was sent.  Returns the final `response`, the clock, and
the unconsumed events. -/
def innerPoll (mid pid sent_time : Nat) :
    List ReadEvent → Option (List Nat × Nat × List ReadEvent)
  | [] => none
  | e :: rest =>
    if responseMatches mid pid e.msg then some (e.msg, e.now, rest)
    else if e.now - sent_time < 20 then innerPoll mid pid sent_time rest
    else some (e.msg, e.now, rest)

theorem innerPoll_consumes {mid pid sent_time : Nat} :
    ∀ {events : List ReadEvent} {r : List Nat × Nat × List ReadEvent},
      innerPoll mid pid sent_time events = some r → r.2.2.length < events.length := by
  intro events
  induction events with
  | nil => intro r h; simp [innerPoll] at h
  | cons e rest ih =>
    intro r h
    simp only [innerPoll] at h
    by_cases h1 : responseMatches mid pid e.msg
    · simp [h1] at h
      subst h
      simp
    · simp [h1] at h
      by_cases h2 : e.now - sent_time < 20
      · simp [h2] at h
        have := ih h
        simp
        omega
      · simp [h2] at h
        subst h
        simp

/-- The request frame construction (lines 735-738). -/
def requestFrame (my_mid pid : Nat) : List Nat :=
  if pid < 255 then [my_mid, 0, pid]
  else [my_mid, 0, 255, pid % 256]

/-- `J1587Driver.request_pid` (lines 724-750).  The outer loop runs while
`not recvd and time.time() - start_time <= 0.08`.  Each iteration sends
the request, polls, and accepts the final response iff
`len(response) > 2 and response[1] == pid` (line 745) — note byte 0 is
NOT rechecked there.  Returns the requests sent and `some result` when
the loop terminates (`result = none` models returning Python `None`);
`none` overall models blocking forever inside `read_message`. -/
def request_pid_run (my_mid mid pid start clock : Nat) (events : List ReadEvent) :
    List (List Nat) × Option (Option (List Nat)) :=
  if 80 < clock - start then ([], some none)
  else
    let request := requestFrame my_mid pid
    match h : innerPoll mid pid clock events with
    | none => ([request], none)
    | some (response, clock1, rest) =>
      if 2 < response.length ∧ response.getD 1 0 = pid then
        ([request], some (some response))
      else
        let r := request_pid_run my_mid mid pid start clock1 rest
        (request :: r.1, r.2)
termination_by events.length
decreasing_by
  exact innerPoll_consumes h

/-! ## Specification-side helper definitions

These are not translations of source functions; they are used to state
properties of the embedded code. -/

/-- The effect on the receive session's `segment_buffer` of storing a list
of `(segment_id, segment_data)` pairs, each at index `segment_id - 1`
(J1587Driver.py line 210), in arrival order. -/
def insertSegments (buf : List (Option (List Nat))) (fs : List (Nat × List Nat)) :
    List (Option (List Nat)) :=
  fs.foldl (fun b f => b.set (f.1 - 1) (some f.2)) buf

/-- Pair each list element with an id, counting up from `k`. -/
def withIds (k : Nat) : List (List Nat) → List (Nat × List Nat)
  | [] => []
  | p :: ps => (k, p) :: withIds (k + 1) ps

/-- A PID-192 section-0 frame: `[src, 192, len, target_pid, section_byte,
target_len, payload...]` (J1587Driver.py lines 607-614). -/
def msFirstFrame (src target_pid secByte target_len : Nat) (payload : List Nat) : List Nat :=
  src :: MULTISECTION_PID :: (3 + payload.length) :: target_pid :: secByte :: target_len :: payload

/-- A PID-192 follow-on frame: `[src, 192, len, target_pid, section_byte,
payload...]` (payload starts at index 5, line 628). -/
def msNextFrame (src target_pid secByte : Nat) (payload : List Nat) : List Nat :=
  src :: MULTISECTION_PID :: (2 + payload.length) :: target_pid :: secByte :: payload

/-- The follow-on frames for sections `j, j+1, ...` of a multisection
message with final-section index `F`, one per payload; the section byte is
`F` in the high nibble and the section index in the low nibble. -/
def msFrames (src target_pid F : Nat) : Nat → List (List Nat) → List (List Nat)
  | _, [] => []
  | j, p :: ps => msNextFrame src target_pid (16 * F + j) p :: msFrames src target_pid F (j + 1) ps

/-! ## Supporting lemmas -/

theorem foldl_mask_mod (l : List Nat) : ∀ a : Nat,
    (l.foldl (fun p q => (p + q) % 256) a) % 256 = (a + l.sum) % 256 := by
  induction l with
  | nil => intro a; simp
  | cons x xs ih =>
    intro a
    simp only [List.foldl_cons, List.sum_cons]
    rw [ih, ← Nat.add_assoc, Nat.mod_add_mod]

theorem toSignedChar_emod (v : Int) : toSignedChar v % 256 = v % 256 := by
  unfold toSignedChar
  by_cases h : v % 256 ≥ 128
  · simp only [h, if_pos]
    omega
  · simp only [h, if_neg, not_false_iff]
    omega

theorem chop15_flatten (P : List Nat) : (chop15 P).flatten = P := by
  induction P using chop15.induct with
  | case1 => simp [chop15]
  | case2 msg h ih =>
    rw [chop15, dif_neg h]
    simp only [List.flatten_cons, ih, List.take_append_drop]

theorem chop15_length (P : List Nat) : (chop15 P).length = (P.length + 14) / 15 := by
  induction P using chop15.induct with
  | case1 => simp [chop15]
  | case2 msg h ih =>
    rw [chop15, dif_neg h]
    simp only [List.length_cons, ih, List.length_drop]
    have : 0 < msg.length := List.length_pos.mpr h
    omega

theorem chop15_chunk_le (P : List Nat) : ∀ l ∈ chop15 P, l.length ≤ 15 := by
  induction P using chop15.induct with
  | case1 => simp [chop15]
  | case2 msg h ih =>
    rw [chop15, dif_neg h]
    intro l hl
    rcases List.mem_cons.mp hl with rfl | hl
    · simp only [List.length_take]
      omega
    · exact ih l hl

theorem chop15_full (P : List Nat) : ∀ i, i + 1 < (chop15 P).length →
    ((chop15 P).getD i []).length = 15 := by
  induction P using chop15.induct with
  | case1 => intro i hi; simp [chop15] at hi
  | case2 msg h ih =>
    rw [chop15, dif_neg h]
    intro i hi
    match i with
    | 0 =>
      simp only [List.getD_cons_zero, List.length_take]
      simp only [List.length_cons] at hi
      have h15 : (chop15 (msg.drop 15)).length = (msg.length - 15 + 14) / 15 := by
        rw [chop15_length, List.length_drop]
      omega
    | i + 1 =>
      simp only [List.getD_cons_succ]
      simp only [List.length_cons] at hi
      exact ih i (by omega)

theorem chop15_chunk_ne_nil (P : List Nat) : ∀ l ∈ chop15 P, l ≠ [] := by
  induction P using chop15.induct with
  | case1 => simp [chop15]
  | case2 msg h ih =>
    rw [chop15, dif_neg h]
    intro l hl
    rcases List.mem_cons.mp hl with rfl | hl
    · have : 0 < msg.length := List.length_pos.mpr h
      simp only [ne_eq, ← List.length_pos, List.length_take]
      omega
    · exact ih l hl

theorem mk_data_frames_map_data (src dst : Nat) (ls : List (List Nat)) :
    ∀ i, (mk_data_frames src dst i ls).map DataFrame.segment_data = ls := by
  induction ls with
  | nil => intro i; rfl
  | cons el rest ih =>
    intro i
    simp only [mk_data_frames, List.map_cons, ih]

theorem mk_data_frames_map_id (src dst : Nat) (ls : List (List Nat)) :
    ∀ i, (mk_data_frames src dst i ls).map DataFrame.segment_id = List.range' i ls.length := by
  induction ls with
  | nil => intro i; rfl
  | cons el rest ih =>
    intro i
    simp only [mk_data_frames, List.map_cons, ih, List.length_cons, List.range'_succ]

theorem mk_data_frames_length (src dst : Nat) (ls : List (List Nat)) (i : Nat) :
    (mk_data_frames src dst i ls).length = ls.length := by
  have := congrArg List.length (mk_data_frames_map_data src dst ls i)
  simpa using this

theorem putDataFrames_silent (frames : List DataFrame) :
    ∀ (k : Nat) (base : Int), putDataFrames false frames base k = ([], false) := by
  intro k
  induction k with
  | zero => intro base; rfl
  | succ k ih => intro base; simpa [putDataFrames] using ih (base + 1)

theorem putDataFrames_in_range (frames : List DataFrame) :
    ∀ (k base : Nat), base + k ≤ frames.length →
      putDataFrames true frames (base : Int) k =
        (((frames.drop base).take k).map DataFrame.to_buffer, false) := by
  intro k
  induction k with
  | zero => intro base _; simp [putDataFrames]
  | succ k ih =>
    intro base hle
    have hlt : base < frames.length := by omega
    have hidx : pyIdx frames (base : Nat) = some frames[base] := by
      simp [pyIdx, List.getElem?_eq_getElem hlt]
    have hcast : ((base : Nat) : Int) + 1 = ((base + 1 : Nat) : Int) := by push_cast; ring
    simp only [putDataFrames, if_pos, hidx, hcast, ih (base + 1) (by omega)]
    rw [List.drop_eq_getElem_cons hlt, List.take_succ_cons, List.map_cons]

/-! ## Claim theorems -/

/-- C9 counterexample: the claim quantifies over every byte sequence, but
on the empty sequence `checksum` applies `functools.reduce` to an empty
list with no initializer, which raises `TypeError`: appending a checksum
to `b''` does not succeed. -/
theorem C9_empty_checksum_crashes :
    ¬ ∃ r, prepare_message? [] false = some r ∧ verify? r = some true := by
  rintro ⟨r, hr, -⟩
  simp [prepare_message?, checksum?] at hr

/-- C9 (amended to nonempty byte sequences): appending the computed
checksum and then re-verifying succeeds, and the appended byte, read as
an unsigned byte, is `(256 - (sum of the preceding bytes mod 256)) mod 256`. -/
theorem C9_checksum_roundtrip (b : List Nat) (hb : b ≠ []) :
    ∃ u : Nat, prepare_message? b false = some (b ++ [u]) ∧
      (u : Int) = (256 - (b.sum : Int) % 256) % 256 ∧
      verify? (b ++ [u]) = some true := by
  match b, hb with
  | x :: xs, _ =>
    have hcs : checksum? (x :: xs) =
        some (toSignedChar (-(((xs.foldl (fun a c => (a + c) % 256) x) : Nat) : Int) - 1 + 1)) := rfl
    set red : Nat := xs.foldl (fun a c => (a + c) % 256) x with hredDef
    set c : Int := toSignedChar (-(red : Int) - 1 + 1) with hcDef
    have hprep : prepare_message? (x :: xs) false = some ((x :: xs) ++ [(c % 256).toNat]) := by
      simp only [prepare_message?, Bool.false_eq_true, if_false, hcs]
    refine ⟨(c % 256).toNat, hprep, ?_, ?_⟩
    · have hnn : 0 ≤ c % 256 := Int.emod_nonneg c (by omega)
      have htn : (((c % 256).toNat : Int)) = c % 256 := Int.toNat_of_nonneg hnn
      rw [htn]
      have hv : (-(red : Int) - 1 + 1) = -(red : Int) := by ring
      have h1 : c % 256 = (-(red : Int)) % 256 := by
        rw [hcDef, hv, toSignedChar_emod]
      have h2 : red % 256 = (x :: xs).sum % 256 := by
        rw [hredDef, foldl_mask_mod, List.sum_cons]
      have h3 : (red : Int) % 256 = ((x :: xs).sum : Int) % 256 := by
        have := congrArg (fun n : Nat => (n : Int)) h2
        simpa only [Int.natCast_mod, Nat.cast_ofNat] using this
      rw [h1]
      omega
    · have hdl : ((x :: xs) ++ [(c % 256).toNat]).dropLast = x :: xs :=
        List.dropLast_concat
      simp only [verify?, hdl, hprep, List.getLast?_concat]
      simp

theorem sendLoop_cts_step (frames : List DataFrame) (d s b k : Nat) (rest : List (List Nat))
    (hb : 1 ≤ b) (hbk : b + k ≤ frames.length + 1) :
    sendLoop true frames (ctsBuffer d s k b :: rest) =
      ((((frames.drop (b - 1)).take k).map DataFrame.to_buffer) ++
         (sendLoop true frames rest).1,
       (sendLoop true frames rest).2) := by
  have hstep : sendLoop true frames (ctsBuffer d s k b :: rest) =
      (let r := putDataFrames true frames ((b : Int) - 1) k
       if r.2 then (r.1, .crashed)
       else
         let r2 := sendLoop true frames rest
         (r.1 ++ r2.1, r2.2)) := rfl
  have hcast : ((b : Nat) : Int) - 1 = ((b - 1 : Nat) : Int) := by omega
  have hput := putDataFrames_in_range frames k (b - 1) (by omega)
  rw [hstep, hcast, hput]
  simp only [Bool.false_eq_true, if_false]

theorem sendLoop_eom (frames : List DataFrame) (d s : Nat) (rest : List (List Nat)) :
    sendLoop true frames (eomBuffer d s :: rest) = ([], .success) := rfl

/-- C1: a send session for payload `P` of 1..3825 bytes, driven by an
obedient peer (CTS(N, next=1) then EOM), puts on the outbound queue
exactly one RTS carrying segment count `N = ceil(|P|/15)` and the total
length `|P|` (as two little-endian bytes), followed by the `N` data
frames, whose segment ids are `1..N` in increasing order, whose payloads
are at most 15 bytes each with only the last shorter, and whose payloads
concatenate to `P`; the session ends successfully.  Moreover any single
in-bounds CTS(k, next=b) makes it emit exactly data frames `b..b+k-1` in
order. -/
theorem C1_send_round_trip (src dst : Nat) (P : List Nat) (N : Nat)
    (h1 : 1 ≤ P.length) (h2 : P.length ≤ 3825) (hN : N = (P.length + 14) / 15) :
    sendSessionRun true src dst P false [ctsBuffer dst src N 1, eomBuffer dst src] =
      ⟨rtsBuffer src dst N P.length ::
         (sendDataFrames src dst P).map DataFrame.to_buffer, .success⟩ ∧
    (sendDataFrames src dst P).length = N ∧
    (rtsBuffer src dst N P.length).getD 5 0 = N ∧
    (rtsBuffer src dst N P.length).getD 6 0 +
        256 * (rtsBuffer src dst N P.length).getD 7 0 = P.length ∧
    (sendDataFrames src dst P).map DataFrame.segment_id = List.range' 1 N ∧
    ((sendDataFrames src dst P).map DataFrame.segment_data).flatten = P ∧
    (∀ f ∈ sendDataFrames src dst P, f.segment_data.length ≤ 15) ∧
    (∀ i, i + 1 < N →
       (((sendDataFrames src dst P).map DataFrame.segment_data).getD i []).length = 15) ∧
    (∀ b k, 1 ≤ b → b + k ≤ N + 1 →
       sendLoop true (sendDataFrames src dst P) [ctsBuffer dst src k b] =
         ((((sendDataFrames src dst P).drop (b - 1)).take k).map DataFrame.to_buffer,
          .failed)) := by
  have hlen : (sendDataFrames src dst P).length = N := by
    rw [sendDataFrames, mk_data_frames_length, chop15_length, hN]
  refine ⟨?_, hlen, rfl, ?_, ?_, ?_, ?_, ?_, ?_⟩
  · have hrun : sendSessionRun true src dst P false
        [ctsBuffer dst src N 1, eomBuffer dst src] =
        ⟨rtsBuffer src dst (sendDataFrames src dst P).length P.length ::
           (sendLoop true (sendDataFrames src dst P)
              [ctsBuffer dst src N 1, eomBuffer dst src]).1,
         (sendLoop true (sendDataFrames src dst P)
            [ctsBuffer dst src N 1, eomBuffer dst src]).2⟩ := rfl
    rw [hrun, sendLoop_cts_step _ dst src 1 N _ (le_refl 1) (by omega),
        sendLoop_eom]
    simp only [List.drop_zero, Nat.sub_self, List.append_nil, hlen]
    rw [← hlen, List.take_length]
  · show P.length % 256 + 256 * (P.length / 256 % 256) = P.length
    omega
  · rw [sendDataFrames, mk_data_frames_map_id, chop15_length, ← hN]
  · rw [sendDataFrames, mk_data_frames_map_data, chop15_flatten]
  · intro f hf
    apply chop15_chunk_le P
    rw [← mk_data_frames_map_data src dst (chop15 P) 1]
    exact List.mem_map_of_mem _ hf
  · intro i hi
    rw [sendDataFrames, mk_data_frames_map_data]
    refine chop15_full P i ?_
    rw [chop15_length, ← hN]
    exact hi
  · intro b k hb hbk
    rw [sendLoop_cts_step _ dst src b k [] hb (by omega)]
    simp [sendLoop]

/-- Witness for C1 at the 16-byte payload `replicate 16 7` (N = 2). -/
theorem C1_send_round_trip_witness :
    1 ≤ (List.replicate 16 7 : List Nat).length ∧
    (List.replicate 16 7 : List Nat).length ≤ 3825 ∧
    (2 : Nat) = ((List.replicate 16 7 : List Nat).length + 14) / 15 ∧
    (sendSessionRun true 0xac 0x80 (List.replicate 16 7) false
        [ctsBuffer 0x80 0xac 2 1, eomBuffer 0x80 0xac] =
      ⟨rtsBuffer 0xac 0x80 2 (List.replicate 16 7 : List Nat).length ::
         (sendDataFrames 0xac 0x80 (List.replicate 16 7)).map DataFrame.to_buffer,
       .success⟩) := by
  refine ⟨by decide, by decide, by decide, ?_⟩
  exact (C1_send_round_trip 0xac 0x80 (List.replicate 16 7) 2
    (by decide) (by decide) (by decide)).1

/-- Witness for C9 at the byte sequence `[0xAC, 0xFE]`. -/
theorem C9_checksum_roundtrip_witness :
    ([0xAC, 0xFE] : List Nat) ≠ [] ∧
    (∃ u : Nat, prepare_message? [0xAC, 0xFE] false = some ([0xAC, 0xFE] ++ [u]) ∧
      (u : Int) = (256 - (([0xAC, 0xFE] : List Nat).sum : Int) % 256) % 256 ∧
      verify? ([0xAC, 0xFE] ++ [u]) = some true) :=
  ⟨by decide, C9_checksum_roundtrip [0xAC, 0xFE] (by decide)⟩

theorem putDataFrames_true_succ (frames : List DataFrame) (base : Int) (k : Nat) :
    putDataFrames true frames base (k + 1) =
      (match pyIdx frames base with
       | none => ([], true)
       | some f =>
         let r := putDataFrames true frames (base + 1) k
         (f.to_buffer :: r.1, r.2)) := rfl

theorem pyIdx_neg_one (l : List DataFrame) (h : 1 ≤ l.length) :
    pyIdx l (-1 : Int) = l[l.length - 1]? := by
  have ht : ((-(-1 : Int)).toNat) = 1 := by norm_num
  simp only [pyIdx, ht]
  rw [if_neg (by norm_num), if_pos (by omega)]

theorem putDataFrames_crash_of_oob (frames : List DataFrame) :
    ∀ (k base : Nat), 1 ≤ k → frames.length + 1 ≤ base + k →
      (putDataFrames true frames (base : Int) k).2 = true := by
  intro k
  induction k with
  | zero => intro base h0 _; omega
  | succ j ih =>
    intro base _ hbk
    rw [putDataFrames_true_succ]
    by_cases hj : j = 0
    · subst hj
      have hb : frames.length ≤ base := by omega
      have hnone : pyIdx frames (base : Int) = none := by
        simp [pyIdx, List.getElem?_eq_none hb]
      rw [hnone]
    · cases hpy : pyIdx frames (base : Int) with
      | none => rfl
      | some f =>
        show (putDataFrames true frames ((base : Int) + 1) j).2 = true
        have hcast : ((base : Nat) : Int) + 1 = ((base + 1 : Nat) : Int) := by
          push_cast; ring
        rw [hcast]
        exact ih (base + 1) (by omega) (by omega)

theorem putDataFrames_wrap_no_crash (frames : List DataFrame)
    (hN : 1 ≤ frames.length) :
    ∀ k, k ≤ frames.length + 1 →
      (putDataFrames true frames (-1 : Int) k).2 = false := by
  intro k hk
  match k with
  | 0 => rfl
  | j + 1 =>
    rw [putDataFrames_true_succ]
    have h1 : frames.length - 1 < frames.length := by omega
    have hlast : pyIdx frames (-1 : Int) = some frames[frames.length - 1] := by
      rw [pyIdx_neg_one frames hN, List.getElem?_eq_getElem h1]
    rw [hlast]
    show (putDataFrames true frames ((-1 : Int) + 1) j).2 = false
    have hcast : (-1 : Int) + 1 = ((0 : Nat) : Int) := by norm_num
    rw [hcast, putDataFrames_in_range frames j 0 (by omega)]

/-- C10 counterexample: the claim says that any inbound CTS violating
`1 ≤ b ∧ b + k - 1 ≤ N` makes an out-of-range access, killing the session.
But Python's negative indexing makes `next_segment = 0` (so `base = -1`)
wrap to the LAST data frame: with one data frame for payload `[1,2,3]` and
inbound CTS(k=1, next=0) the session emits data frame 1's buffer and keeps
running (ending `.failed` only because nothing further arrives — not
`.crashed`, and no out-of-range access happens). -/
theorem C10_counterexample :
    sendLoop true (sendDataFrames 0xac 0x80 [1, 2, 3]) [ctsBuffer 0x80 0xac 1 0] =
      ([[0xac, 198, 5, 0x80, 1, 1, 2, 3]], .failed) := by
  have h : sendDataFrames 0xac 0x80 [1, 2, 3] = [⟨0xac, 0x80, 1, [1, 2, 3]⟩] := by
    simp [sendDataFrames, chop15, mk_data_frames]
  rw [h]
  decide

/-- C10 (amended): on an inbound CTS(k, next=b), a non-preempt send
session holding `N ≥ 1` data frames accesses Python list indices
`b-1 .. b+k-2`, where the index `-1` arising from `b = 0` wraps to the
last frame instead of raising.  The emission loop raises `IndexError`
iff `(1 ≤ b ∧ 1 ≤ k ∧ b + k ≥ N + 2) ∨ (b = 0 ∧ k ≥ N + 2)`; in that case
the session terminates `.crashed` without setting success, and
`transport_send` then raises its timeout error. -/
theorem C10_cts_emission_bounds (frames : List DataFrame) (d s b k : Nat)
    (hN : 1 ≤ frames.length) :
    ((sendLoop true frames [ctsBuffer d s k b]).2 = .crashed ↔
      ((1 ≤ b ∧ 1 ≤ k ∧ frames.length + 2 ≤ b + k) ∨
       (b = 0 ∧ frames.length + 2 ≤ k))) ∧
    (∀ outs : List (List Nat),
       transport_send_raises ⟨outs, .crashed⟩ = true) := by
  constructor
  · have hstep : sendLoop true frames [ctsBuffer d s k b] =
        (let r := putDataFrames true frames ((b : Int) - 1) k
         if r.2 then (r.1, .crashed)
         else
           let r2 := sendLoop true frames ([] : List (List Nat))
           (r.1 ++ r2.1, r2.2)) := rfl
    have houtcome : (sendLoop true frames [ctsBuffer d s k b]).2 = .crashed ↔
        (putDataFrames true frames ((b : Int) - 1) k).2 = true := by
      rw [hstep]
      cases hr : (putDataFrames true frames ((b : Int) - 1) k).2 <;>
        simp [hr, sendLoop]
    rw [houtcome]
    by_cases hb : b = 0
    · subst hb
      have hm1 : ((0 : Nat) : Int) - 1 = (-1 : Int) := by norm_num
      rw [hm1]
      constructor
      · intro hcrash
        by_contra hcon
        have hk : k ≤ frames.length + 1 := by
          by_contra hgt
          exact hcon (Or.inr ⟨rfl, by omega⟩)
        rw [putDataFrames_wrap_no_crash frames hN k hk] at hcrash
        exact Bool.false_ne_true hcrash
      · rintro (⟨h1, _, _⟩ | ⟨-, hk⟩)
        · omega
        · match k, hk with
          | j + 1, hk =>
            have h1 : frames.length - 1 < frames.length := by omega
            have hf : pyIdx frames (-1 : Int) = some frames[frames.length - 1] := by
              rw [pyIdx_neg_one frames hN, List.getElem?_eq_getElem h1]
            rw [putDataFrames_true_succ, hf]
            show (putDataFrames true frames ((-1 : Int) + 1) j).2 = true
            have hcast : (-1 : Int) + 1 = ((0 : Nat) : Int) := by norm_num
            rw [hcast]
            exact putDataFrames_crash_of_oob frames j 0 (by omega) (by omega)
    · have hbc : ((b : Nat) : Int) - 1 = ((b - 1 : Nat) : Int) := by omega
      rw [hbc]
      constructor
      · intro hcrash
        by_contra hcon
        rcases Nat.eq_zero_or_pos k with hk0 | hkpos
        · subst hk0
          exact Bool.false_ne_true hcrash
        · have hA : b + k ≤ frames.length + 1 := by
            by_contra hgt
            exact hcon (Or.inl ⟨by omega, hkpos, by omega⟩)
          have hk : b - 1 + k ≤ frames.length := by omega
          rw [putDataFrames_in_range frames k (b - 1) hk] at hcrash
          simp at hcrash
      · rintro (⟨h1, hk1, hoob⟩ | ⟨hb0, _⟩)
        · have hgoal : frames.length + 1 ≤ (b - 1) + k := by omega
          exact putDataFrames_crash_of_oob frames k (b - 1) hk1 hgoal
        · omega
  · intro outs
    rfl

/-- Witness for C10 with one data frame and CTS(k=1, next=2)
(out of range: emission crashes). -/
theorem C10_cts_emission_bounds_witness :
    1 ≤ ([⟨0xac, 0x80, 1, [1, 2, 3]⟩] : List DataFrame).length ∧
    (((sendLoop true [⟨0xac, 0x80, 1, [1, 2, 3]⟩] [ctsBuffer 0x80 0xac 1 2]).2 = .crashed ↔
       ((1 ≤ 2 ∧ 1 ≤ 1 ∧
           ([⟨0xac, 0x80, 1, [1, 2, 3]⟩] : List DataFrame).length + 2 ≤ 2 + 1) ∨
        (2 = 0 ∧ ([⟨0xac, 0x80, 1, [1, 2, 3]⟩] : List DataFrame).length + 2 ≤ 1))) ∧
     (∀ outs : List (List Nat), transport_send_raises ⟨outs, .crashed⟩ = true)) :=
  ⟨by decide, C10_cts_emission_bounds [⟨0xac, 0x80, 1, [1, 2, 3]⟩] 0x80 0xac 2 1 (by decide)⟩

theorem update_transport_session_keys_mem (src dst : Nat) (v : SessionKind) :
    ∀ (idx : SessionIndex) (a : Nat × Nat),
      a ∈ (update_transport_session idx src dst v).map Prod.fst →
      a ∈ idx.map Prod.fst ∨ a = (src, dst) := by
  intro idx
  induction idx with
  | nil => intro a ha; simp [update_transport_session] at ha; simp [ha]
  | cons e rest ih =>
    intro a ha
    by_cases he : e.1 = (src, dst)
    · simp only [update_transport_session, if_pos he, List.map_cons, List.mem_cons] at ha
      rcases ha with rfl | ha
      · right; rfl
      · left; simp [ha]
    · simp only [update_transport_session, if_neg he, List.map_cons, List.mem_cons] at ha
      rcases ha with rfl | ha
      · left; simp
      · rcases ih a ha with h | h
        · left; simp [h]
        · right; exact h

theorem update_transport_session_nodup (src dst : Nat) (v : SessionKind) :
    ∀ idx : SessionIndex, (idx.map Prod.fst).Nodup →
      ((update_transport_session idx src dst v).map Prod.fst).Nodup := by
  intro idx
  induction idx with
  | nil => intro _; simp [update_transport_session]
  | cons e rest ih =>
    intro hnd
    simp only [List.map_cons, List.nodup_cons] at hnd
    by_cases he : e.1 = (src, dst)
    · simp only [update_transport_session, if_pos he, List.map_cons, List.nodup_cons]
      exact ⟨by rw [← he]; exact hnd.1, hnd.2⟩
    · simp only [update_transport_session, if_neg he, List.map_cons, List.nodup_cons]
      refine ⟨?_, ih hnd.2⟩
      intro hmem
      rcases update_transport_session_keys_mem src dst v rest e.1 hmem with h | h
      · exact hnd.1 h
      · exact he h

theorem get_update_transport_session (src dst : Nat) (v : SessionKind) :
    ∀ idx : SessionIndex,
      get_transport_session (update_transport_session idx src dst v) src dst = some v := by
  intro idx
  induction idx with
  | nil => simp [update_transport_session, get_transport_session]
  | cons e rest ih =>
    by_cases he : e.1 = (src, dst)
    · simp [update_transport_session, if_pos he, get_transport_session]
    · simp only [update_transport_session, if_neg he]
      unfold get_transport_session at ih ⊢
      rw [List.find?_cons_of_neg _ (by simp [he])]
      exact ih

theorem sendLoop_silent_outputs (frames : List DataFrame) :
    ∀ inbound : List (List Nat), (sendLoop false frames inbound).1 = [] := by
  intro inbound
  induction inbound with
  | nil => rfl
  | cons msg rest ih =>
    by_cases hc : is_conn_frame msg
    · cases hp : parse_conn_frame msg with
      | none => simp [sendLoop, hc, hp]
      | some cf =>
        cases cf with
        | rts s d a b => simp [sendLoop, hc, hp, ih]
        | cts s d k b => simp [sendLoop, hc, hp, putDataFrames_silent, ih]
        | eom s d => simp [sendLoop, hc, hp]
        | rsd s d r => simp [sendLoop, hc, hp, ih]
        | abort s d => simp [sendLoop, hc, hp]
    · simp [sendLoop, hc]

theorem recvLoop_silent_outputs (my other : Nat) :
    ∀ (inbound : List (List Nat)) (buf : List (Option (List Nat))),
      (recvLoop false my other buf inbound).2.1 = [] := by
  intro inbound
  induction inbound with
  | nil =>
    intro buf
    by_cases h : none ∈ buf <;> simp [recvLoop, h]
  | cons msg rest ih =>
    intro buf
    by_cases h : none ∈ buf
    · by_cases h1 : is_abort_frame msg
      · simp [recvLoop, h, h1]
      · by_cases h2 : is_rts_frame msg
        · simp [recvLoop, h, h1, h2, ih]
        · by_cases h3 : is_conn_frame msg
          · simp [recvLoop, h, h1, h2, h3, ih]
          · by_cases h4 : is_data_frame msg
            · simp [recvLoop, h, h1, h2, h3, h4, ih]
            · simp [recvLoop, h, h1, h2, h3, h4]
    · simp [recvLoop, h]

/-- C3 counterexample: a send session to peer 0x80 from `my_mid = 0xac`
is stored under key `(0xac, 0x80)` — and an RTS from 0x80 addressed to
0xac carries exactly the same key, so the index cannot hold and route
both a send and a receive session for that peer at once.  While the send
session is live, the inbound RTS is handed to it (`.toExisting`) and no
receive session is spawned. -/
theorem C3_counterexample :
    sendSessionKey 0xac 0x80 = recvSessionKey (rtsBuffer 0x80 0xac 1 12) ∧
    handle_transport_message
        (update_transport_session [] 0xac 0x80 .send) 0xac 0x80
        (rtsBuffer 0x80 0xac 1 12) = .toExisting (0xac, 0x80) := by
  decide

/-- C3 (amended): the transport-session index keeps at most one session
per key (keys stay pairwise distinct across updates, and an update
replaces the entry at its key); a receive session's key is
`(rts.dst, rts.src)` and a send session's key is `(my_mid, dst)` — but a
send session to peer `P` and a receive session for an RTS from `P`
addressed to `my_mid` share the key `(my_mid, P)`, so the two can never
be separately routed: while any session is live at `(dst, src)`, an
inbound frame for that key — an RTS from `P` included — is given to that
session and nothing new is spawned. -/
theorem C3_session_keying (my P seg len : Nat) :
    recvSessionKey (rtsBuffer P my seg len) = (my, P) ∧
    sendSessionKey my P = (my, P) ∧
    (∀ (idx : SessionIndex) (src dst : Nat) (v : SessionKind),
       (idx.map Prod.fst).Nodup →
       ((update_transport_session idx src dst v).map Prod.fst).Nodup ∧
       get_transport_session (update_transport_session idx src dst v) src dst = some v) ∧
    (∀ (idx : SessionIndex) (msg : List Nat) (k : SessionKind),
       get_transport_session idx my P = some k →
       handle_transport_message idx my P msg = .toExisting (my, P)) := by
  refine ⟨rfl, rfl, ?_, ?_⟩
  · intro idx src dst v hnd
    exact ⟨update_transport_session_nodup src dst v idx hnd,
           get_update_transport_session src dst v idx⟩
  · intro idx msg k hk
    unfold handle_transport_message
    rw [hk]

/-- C7 (code bug): a receive session in the Collecting state that gets a
connection-management frame that is neither RTS nor ABORT (here a CTS)
enqueues the ABORT frame exactly ONCE — the `for i in range(3)` loop at
J1587Driver.py lines 204-207 ends in `break`, so it runs one iteration —
and then KEEPS COLLECTING rather than terminating: fed the two data
frames afterwards, it still completes, delivers the reassembled message
and emits EOM x3.  The spec's state table (ABORT x3, Failed) and its own
design note about the `for ... break` slip show three emissions and
termination were the intent. -/
theorem C7_abort_once_and_continue :
    recvSessionRun true (rtsBuffer 0x80 0xac 2 3)
        [ctsBuffer 0x80 0xac 1 1,
         DataFrame.to_buffer ⟨0x80, 0xac, 1, [1, 2]⟩,
         DataFrame.to_buffer ⟨0x80, 0xac, 2, [3]⟩] =
      ⟨ctsBuffer 0xac 0x80 2 1 :: abortBuffer 0xac 0x80 ::
         List.replicate 3 (eomBuffer 0xac 0x80),
       some [0x80, 1, 2, 3], .completed⟩ := by
  decide

theorem get_ms_singleton (k : Nat × Nat) (s : MsSession) :
    get_multisection_session [(k, s)] k = some s := by
  simp [get_multisection_session]

theorem clear_ms_singleton (k : Nat × Nat) (s : MsSession) :
    clear_multisection_session [(k, s)] k = [] := by
  simp [clear_multisection_session]

theorem update_ms_singleton (k : Nat × Nat) (s v : MsSession) :
    update_multisection_session [(k, s)] k v = [(k, v)] := by
  simp [update_multisection_session]

theorem msNextFrame_drop5 (src pid b : Nat) (p : List Nat) :
    (msNextFrame src pid b p).drop 5 = p := rfl

theorem msFirstFrame_drop6 (src pid b t : Nat) (p : List Nat) :
    (msFirstFrame src pid b t p).drop 6 = p := rfl

theorem handle_ms_next (src pid F j tlen : Nat) (acc p : List Nat) (d : MsDict)
    (hget : get_multisection_session d (src, pid) = some ⟨tlen, j - 1, acc⟩)
    (hj1 : 1 ≤ j) (hjF : j ≤ F) (hF : F ≤ 15) :
    handle_multisection_message d (msNextFrame src pid (16 * F + j) p) =
      (if j = F ∧ (acc ++ p).length = tlen then
         some (clear_multisection_session d (src, pid),
               [src :: pid :: (acc ++ p).length :: (acc ++ p)])
       else some (update_multisection_session d (src, pid) ⟨tlen, j, acc ++ p⟩, [])) := by
  unfold handle_multisection_message
  rw [if_neg (by simp only [msNextFrame, List.length_cons]; omega)]
  simp only [msNextFrame, List.getD_cons_zero, List.getD_cons_succ]
  rw [show (16 * F + j) % 16 = j by omega,
      show (16 * F + j) / 16 % 16 = F by omega]
  rw [if_neg (by omega : ¬ j = 0)]
  have hdrop : (src :: MULTISECTION_PID :: (2 + p.length) :: pid ::
      (16 * F + j) :: p).drop 5 = p := rfl
  rw [hget]
  simp only [hdrop]
  rw [if_neg (by omega : ¬ (j - 1 + 1 ≠ j))]
  rfl

theorem runMs_sections (src pid F tlen : Nat) (hF : F ≤ 15) :
    ∀ (ps : List (List Nat)) (j : Nat) (acc : List Nat),
      1 ≤ j → j ≤ F → j + ps.length = F + 1 →
      (acc ++ ps.flatten).length = tlen →
      runMultisection [((src, pid), ⟨tlen, j - 1, acc⟩)] (msFrames src pid F j ps) =
        some ([], [src :: pid :: tlen :: (acc ++ ps.flatten)]) := by
  intro ps
  induction ps with
  | nil => intro j acc h1 h2 h3 _; simp at h3; omega
  | cons p ps ih =>
    intro j acc h1 h2 h3 hlen
    rw [show msFrames src pid F j (p :: ps) =
        msNextFrame src pid (16 * F + j) p :: msFrames src pid F (j + 1) ps from rfl]
    simp only [runMultisection]
    rw [handle_ms_next src pid F j tlen acc p _
        (get_ms_singleton (src, pid) ⟨tlen, j - 1, acc⟩) h1 h2 hF]
    cases ps with
    | nil =>
      have hjF : j = F := by simp at h3; omega
      have hacc : (acc ++ p).length = tlen := by
        simpa using hlen
      rw [if_pos ⟨hjF, hacc⟩, clear_ms_singleton]
      simp only [msFrames, runMultisection]
      simp [hacc]
    | cons q ps2 =>
      have hjF : ¬ (j = F ∧ (acc ++ p).length = tlen) := by
        intro hcon
        have : j < F := by simp at h3; omega
        omega
      rw [if_neg hjF, update_ms_singleton]
      have hih := ih (j + 1) (acc ++ p) (by omega) (by simp at h3; omega)
        (by simp at h3 ⊢; omega) (by simp at hlen ⊢; omega)
      rw [Nat.add_sub_cancel] at hih
      simp only [hih]
      simp

/-- C4 counterexample: the claim includes F = 0, but a single-section
multisection message (section byte 0x00: final = 0, this = 0) only
CREATES a session — the `section_this == 0` branch of
`handle_multisection_message` never checks completion — so nothing is
ever delivered, where the claim requires delivery of
`[src, target_pid, target_len]` (here `[0x80, 243, 0]`). -/
theorem C4_counterexample_single_section :
    runMultisection [] [[0x80, 192, 3, 243, 0, 0]] =
      some ([((0x80, 243), ⟨0, 0, []⟩)], []) := by
  decide

/-- C4 (amended): for 1 ≤ F ≤ 15, a sequence of PID-192 frames from the
same (src, target_pid) carrying sections 0, 1, ..., F in order, whose
concatenated payloads have length `target_len` (the byte after the
section byte of section 0), makes the reassembler deliver exactly
`[src, target_pid, target_len] ++ payload` and clear the session; and any
frame with a NONZERO section number that is not exactly `last_seen + 1`
at a live session drops that session and passes the raw frame through
(a frame with section number 0 instead restarts the session). -/
theorem C4_multisection_delivery (src pid F tlen : Nat)
    (p0 : List Nat) (ps : List (List Nat))
    (hF1 : 1 ≤ F) (hF2 : F ≤ 15) (hlen : ps.length = F)
    (htl : (p0 ++ ps.flatten).length = tlen) :
    runMultisection []
        (msFirstFrame src pid (16 * F) tlen p0 :: msFrames src pid F 1 ps) =
      some ([], [src :: pid :: tlen :: (p0 ++ ps.flatten)]) ∧
    (∀ (d : MsDict) (s : MsSession) (m : List Nat),
       get_multisection_session d (src, pid) = some s →
       m.getD 0 0 = src → m.getD 3 0 = pid → ¬ m.length < 5 →
       1 ≤ m.getD 4 0 % 16 → m.getD 4 0 % 16 ≠ s.last_seen_section + 1 →
       handle_multisection_message d m =
         some (clear_multisection_session d (src, pid), [m])) := by
  constructor
  · simp only [runMultisection]
    have hfirst : handle_multisection_message [] (msFirstFrame src pid (16 * F) tlen p0) =
        some ([((src, pid), ⟨tlen, 0, p0⟩)], []) := by
      unfold handle_multisection_message
      rw [if_neg (by simp only [msFirstFrame, List.length_cons]; omega)]
      simp only [msFirstFrame, List.getD_cons_zero, List.getD_cons_succ]
      rw [if_pos (by omega : (16 * F) % 16 = 0)]
      rw [if_pos (by simp only [List.length_cons]; omega)]
      have hdrop : (src :: MULTISECTION_PID :: (3 + p0.length) :: pid ::
          (16 * F) :: tlen :: p0).drop 6 = p0 := rfl
      simp only [hdrop]
      rfl
    have hrun := runMs_sections src pid F tlen hF2 ps 1 p0 (le_refl 1) hF1
      (by omega) htl
    simp only [Nat.sub_self] at hrun
    simp only [hfirst, hrun]
    simp
  · intro d s m hget hm0 hm3 hml h41 h4ne
    unfold handle_multisection_message
    rw [if_neg hml, hm0, hm3]
    rw [if_neg (by omega : ¬ m.getD 4 0 % 16 = 0)]
    simp only [hget]
    rw [if_pos (by omega : s.last_seen_section + 1 ≠ m.getD 4 0 % 16)]
    rfl

/-- Witness for C4 at the repository test's component-id example
(three sections, 33 payload bytes, target_len 0x21). -/
theorem C4_multisection_delivery_witness :
    runMultisection []
        (msFirstFrame 0x80 243 (16 * 2) 0x21
            [0x80, 0x43, 0x43, 0x43, 0x43, 0x43, 0x2a,
             0x44, 0x44, 0x44, 0x44, 0x44, 0x44, 0x44] ::
          msFrames 0x80 243 2 1
            [[0x44, 0x44, 0x44, 0x2a, 0x56, 0x56, 0x56, 0x56, 0x56, 0x56,
              0x56, 0x56, 0x56, 0x56, 0x56],
             [0x56, 0x56, 0x56, 0x56]]) =
      some ([], [0x80 :: 243 :: 0x21 ::
        ([0x80, 0x43, 0x43, 0x43, 0x43, 0x43, 0x2a,
          0x44, 0x44, 0x44, 0x44, 0x44, 0x44, 0x44] ++
         ([[0x44, 0x44, 0x44, 0x2a, 0x56, 0x56, 0x56, 0x56, 0x56, 0x56,
            0x56, 0x56, 0x56, 0x56, 0x56],
           [0x56, 0x56, 0x56, 0x56]] : List (List Nat)).flatten)]) :=
  (C4_multisection_delivery 0x80 243 2 0x21
    [0x80, 0x43, 0x43, 0x43, 0x43, 0x43, 0x2a,
     0x44, 0x44, 0x44, 0x44, 0x44, 0x44, 0x44]
    [[0x44, 0x44, 0x44, 0x2a, 0x56, 0x56, 0x56, 0x56, 0x56, 0x56,
      0x56, 0x56, 0x56, 0x56, 0x56],
     [0x56, 0x56, 0x56, 0x56]]
    (by decide) (by decide) (by decide) (by decide)).1

/-- C8 counterexample: `request_pid(0x80, 5)` (driver MID 0xac) is
claimed to return only messages whose byte 0 equals the requested MID.
But the final acceptance test (J1587Driver.py line 745) checks only
`len(response) > 2 and response[1] == pid`: when the inner 20 ms budget
expires on a message `[0x81, 5, 0]` from the wrong MID 0x81, that
message is accepted and returned. -/
theorem C8_counterexample :
    request_pid_run 0xac 0x80 5 0 0 [⟨[0x81, 5, 0], 25⟩] =
      ([[0xac, 0, 5]], some (some [0x81, 5, 0])) ∧ (0x81 : Nat) ≠ 0x80 := by
  constructor
  · rw [request_pid_run]
    decide
  · decide

/-- C8 (amended): `request_pid(mid, pid)` transmits the request frame
`[my_mid, 0, pid]` when `pid < 255` and `[my_mid, 0, 255, pid mod 256]`
otherwise (every frame it sends is that request), polls reads under the
80 ms outer / 20 ms inner budgets seeking a message with byte 0 = mid and
byte 1 = pid, but accepts as its final result any message of length > 2
whose byte 1 equals pid — byte 0 is not rechecked at acceptance — and
returns no message otherwise. -/
theorem request_pid_run_deadline (my mid pid start clock : Nat)
    (events : List ReadEvent) (h : 80 < clock - start) :
    request_pid_run my mid pid start clock events = ([], some none) := by
  rw [request_pid_run, if_pos h]

theorem request_pid_run_blocked (my mid pid start clock : Nat)
    (events : List ReadEvent) (h : ¬ 80 < clock - start)
    (hpoll : innerPoll mid pid clock events = none) :
    request_pid_run my mid pid start clock events = ([requestFrame my pid], none) := by
  rw [request_pid_run, if_neg h]
  split
  · rfl
  · next response clock1 rest heq =>
    rw [hpoll] at heq
    cases heq

theorem request_pid_run_accept (my mid pid start clock : Nat)
    (events : List ReadEvent) (response : List Nat) (clock1 : Nat)
    (rest : List ReadEvent) (h : ¬ 80 < clock - start)
    (hpoll : innerPoll mid pid clock events = some (response, clock1, rest))
    (hacc : 2 < response.length ∧ response.getD 1 0 = pid) :
    request_pid_run my mid pid start clock events =
      ([requestFrame my pid], some (some response)) := by
  rw [request_pid_run, if_neg h]
  split
  · next heq =>
    rw [hpoll] at heq
    cases heq
  · next response2 clock2 rest2 heq =>
    rw [hpoll] at heq
    injection heq with heq2
    obtain ⟨rfl, rfl, rfl⟩ := Prod.mk.injEq .. ▸ (by
      have h1 : response = response2 := congrArg (fun t => t.1) heq2
      have h2 : clock1 = clock2 := congrArg (fun t => t.2.1) heq2
      have h3 : rest = rest2 := congrArg (fun t => t.2.2) heq2
      exact ⟨h1.symm, h2.symm, h3.symm⟩ : response2 = response ∧ clock2 = clock1 ∧ rest2 = rest)
    rw [if_pos hacc]

theorem request_pid_run_reject (my mid pid start clock : Nat)
    (events : List ReadEvent) (response : List Nat) (clock1 : Nat)
    (rest : List ReadEvent) (h : ¬ 80 < clock - start)
    (hpoll : innerPoll mid pid clock events = some (response, clock1, rest))
    (hacc : ¬ (2 < response.length ∧ response.getD 1 0 = pid)) :
    request_pid_run my mid pid start clock events =
      (requestFrame my pid :: (request_pid_run my mid pid start clock1 rest).1,
       (request_pid_run my mid pid start clock1 rest).2) := by
  rw [request_pid_run, if_neg h]
  split
  · next heq =>
    rw [hpoll] at heq
    cases heq
  · next response2 clock2 rest2 heq =>
    rw [hpoll] at heq
    injection heq with heq2
    obtain ⟨rfl, rfl, rfl⟩ := Prod.mk.injEq .. ▸ (by
      have h1 : response = response2 := congrArg (fun t => t.1) heq2
      have h2 : clock1 = clock2 := congrArg (fun t => t.2.1) heq2
      have h3 : rest = rest2 := congrArg (fun t => t.2.2) heq2
      exact ⟨h1.symm, h2.symm, h3.symm⟩ : response2 = response ∧ clock2 = clock1 ∧ rest2 = rest)
    rw [if_neg hacc]

theorem C8_request_pid_guarantee (my_mid mid pid start : Nat) :
    ∀ (clock : Nat) (events : List ReadEvent),
    (∀ r ∈ (request_pid_run my_mid mid pid start clock events).1,
       r = requestFrame my_mid pid) ∧
    (∀ resp, (request_pid_run my_mid mid pid start clock events).2 = some (some resp) →
       2 < resp.length ∧ resp.getD 1 0 = pid) := by
  refine request_pid_run.induct my_mid mid pid start
    (fun clock events =>
      (∀ r ∈ (request_pid_run my_mid mid pid start clock events).1,
         r = requestFrame my_mid pid) ∧
      (∀ resp, (request_pid_run my_mid mid pid start clock events).2 = some (some resp) →
         2 < resp.length ∧ resp.getD 1 0 = pid)) ?_ ?_ ?_ ?_
  · intro clock events h
    rw [request_pid_run_deadline my_mid mid pid start clock events h]
    constructor
    · intro r hr
      simp at hr
    · intro resp hresp
      simp at hresp
  · intro clock events h hpoll
    rw [request_pid_run_blocked my_mid mid pid start clock events h hpoll]
    constructor
    · intro r hr
      simpa using hr
    · intro resp hresp
      simp at hresp
  · intro clock events h response clock1 rest hpoll hacc
    rw [request_pid_run_accept my_mid mid pid start clock events response clock1 rest
        h hpoll hacc]
    constructor
    · intro r hr
      simpa using hr
    · intro resp hresp
      simp only [Option.some.injEq] at hresp
      subst hresp
      exact hacc
  · intro clock events h response clock1 rest hpoll hacc ih
    rw [request_pid_run_reject my_mid mid pid start clock events response clock1 rest
        h hpoll hacc]
    constructor
    · intro r hr
      simp only [List.mem_cons] at hr
      rcases hr with rfl | hr
      · rfl
      · exact ih.1 r hr
    · intro resp hresp
      exact ih.2 resp hresp

/-- Witness for C8: a matching response from the requested MID is
accepted; the request frame sent is `[0xac, 0, 5]`. -/
theorem C8_request_pid_guarantee_witness :
    (∀ r ∈ (request_pid_run 0xac 0x80 5 0 0 [⟨[0x80, 5, 9], 3⟩]).1,
       r = requestFrame 0xac 5) ∧
    (∀ resp, (request_pid_run 0xac 0x80 5 0 0 [⟨[0x80, 5, 9], 3⟩]).2 = some (some resp) →
       2 < resp.length ∧ resp.getD 1 0 = 5) :=
  C8_request_pid_guarantee 0xac 0x80 5 0 0 [⟨[0x80, 5, 9], 3⟩]

/-- Witness for C3 at concrete MIDs 0xac (local) and 0x80 (peer). -/
theorem C3_session_keying_witness :
    recvSessionKey (rtsBuffer 0x80 0xac 1 12) = (0xac, 0x80) ∧
    sendSessionKey 0xac 0x80 = (0xac, 0x80) ∧
    get_transport_session (update_transport_session [] 0xac 0x80 .send) 0xac 0x80 =
      some .send ∧
    handle_transport_message (update_transport_session [] 0xac 0x80 .send) 0xac 0x80
      (rtsBuffer 0x80 0xac 1 12) = .toExisting (0xac, 0x80) := by
  refine ⟨(C3_session_keying 0xac 0x80 1 12).1,
    (C3_session_keying 0xac 0x80 1 12).2.1, ?_, ?_⟩
  · exact ((C3_session_keying 0xac 0x80 1 12).2.2.1 [] 0xac 0x80 .send (by decide)).2
  · exact (C3_session_keying 0xac 0x80 1 12).2.2.2
      (update_transport_session [] 0xac 0x80 .send) (rtsBuffer 0x80 0xac 1 12) .send
      ((C3_session_keying 0xac 0x80 1 12).2.2.1 [] 0xac 0x80 .send (by decide)).2

/-- C6 counterexample: with `silent = true` a frame enqueued through the
facade's `send_message` is still transmitted: the `Send` branch of
`J1587WorkerThread.run` never consults `silent` (the repository's own
test `test_j1587_send_no_dropping` asserts exactly this behaviour). -/
theorem C6_counterexample :
    worker_run_transmissions true (facade_send_enqueue [0xff, 0x00]) = [[0xff, 0x00]] := by
  decide

/-- C6 (amended): with `silent = true` no session-originated frame (CTS,
EOM, ABORT, RTS or data frame) is ever enqueued for transmission —
sessions are built with no out-queue and the spine's ABORT reply is
gated — but every frame enqueued via the facade's `send_message`
(`Send`-tagged on the spine's queue) is still handed to the link
endpoint. -/
theorem C6_silent_behavior :
    (∀ (src dst : Nat) (msg : List Nat) (preempt : Bool) (inbound : List (List Nat)),
       (sendSessionRun (session_out_queue_present true) src dst msg preempt inbound).outputs
         = []) ∧
    (∀ (rts : List Nat) (inbound : List (List Nat)),
       (recvSessionRun (session_out_queue_present true) rts inbound).outputs = []) ∧
    (∀ my src : Nat, spine_abort_reply true my src = []) ∧
    (∀ items : List (Tag × List Nat),
       worker_run_transmissions true items =
         (items.filter (fun it => it.1 == Tag.send)).map Prod.snd) := by
  refine ⟨?_, ?_, ?_, ?_⟩
  · intro src dst msg preempt inbound
    show (sendSessionRun false src dst msg preempt inbound).outputs = []
    cases preempt with
    | true => rfl
    | false =>
      show ([] ++ (sendLoop false (sendDataFrames src dst msg) inbound).1 : List (List Nat)) = []
      rw [List.nil_append]
      exact sendLoop_silent_outputs _ inbound
  · intro rts inbound
    show (recvSessionRun false rts inbound).outputs = []
    cases hp : parse_conn_frame rts with
    | none => simp [recvSessionRun, hp]
    | some cf =>
      cases cf with
      | rts s d seg len =>
        have hloop := recvLoop_silent_outputs d s inbound (List.replicate seg none)
        cases hend : (recvLoop false d s (List.replicate seg none) inbound).2.2 <;>
          simp only [recvSessionRun, hp, hend, hloop] <;>
          by_cases hnone : none ∈ (recvLoop false d s (List.replicate seg none) inbound).1 <;>
          simp [RecvResult.outputs, hend, hnone, hloop]
      | cts s d a b => simp [recvSessionRun, hp]
      | eom s d => simp [recvSessionRun, hp]
      | rsd s d r => simp [recvSessionRun, hp]
      | abort s d => simp [recvSessionRun, hp]
  · intro my src
    rfl
  · intro items
    induction items with
    | nil => rfl
    | cons it rest ih =>
      obtain ⟨tag, m⟩ := it
      cases tag with
      | send => simp [worker_run_transmissions, ih]
      | read => simp [worker_run_transmissions, ih]

theorem withIds_length (ps : List (List Nat)) : ∀ k, (withIds k ps).length = ps.length := by
  induction ps with
  | nil => intro k; rfl
  | cons p ps ih => intro k; simp [withIds, ih]

theorem withIds_map_pred (ps : List (List Nat)) :
    ∀ k, (withIds (k + 1) ps).map (fun f => f.1 - 1) = List.range' k ps.length := by
  induction ps with
  | nil => intro k; rfl
  | cons p ps ih =>
    intro k
    simp only [withIds, List.map_cons, Nat.add_sub_cancel, List.length_cons,
      List.range'_succ, ih (k + 1)]

theorem withIds_mem_snd (ps : List (List Nat)) :
    ∀ k f, f ∈ withIds k ps → f.2 ∈ ps := by
  induction ps with
  | nil => intro k f hf; simp [withIds] at hf
  | cons p ps ih =>
    intro k f hf
    simp only [withIds, List.mem_cons] at hf
    rcases hf with rfl | hf
    · simp
    · simp [ih (k + 1) f hf]

theorem map_getD_some (ps : List (List Nat)) :
    List.map ((fun o => Option.getD o []) ∘ some) ps = ps := by
  induction ps with
  | nil => rfl
  | cons p ps ih => simp only [List.map_cons, Function.comp_apply, Option.getD_some, ih]

theorem insertSegments_nil (buf : List (Option (List Nat))) :
    insertSegments buf [] = buf := rfl

theorem insertSegments_cons (buf : List (Option (List Nat))) (f : Nat × List Nat)
    (fs : List (Nat × List Nat)) :
    insertSegments buf (f :: fs) =
      insertSegments (buf.set (f.1 - 1) (some f.2)) fs := rfl

theorem insertSegments_perm :
    ∀ {fs gs : List (Nat × List Nat)}, fs.Perm gs →
      (fs.map (fun f => f.1 - 1)).Nodup →
      ∀ buf, insertSegments buf fs = insertSegments buf gs := by
  intro fs gs hperm
  induction hperm with
  | nil => intro _ _; rfl
  | cons x h ih =>
    intro hnd buf
    simp only [List.map_cons, List.nodup_cons] at hnd
    rw [insertSegments_cons, insertSegments_cons]
    exact ih hnd.2 _
  | swap x y l =>
    intro hnd buf
    simp only [List.map_cons, List.nodup_cons, List.mem_cons] at hnd
    have hne : y.1 - 1 ≠ x.1 - 1 := fun h => hnd.1 (Or.inl h)
    rw [insertSegments_cons, insertSegments_cons,
        insertSegments_cons, insertSegments_cons,
        List.set_comm _ _ _ hne]
  | trans h₁ h₂ ih₁ ih₂ =>
    intro hnd buf
    rw [ih₁ hnd buf,
        ih₂ (((h₁.map (fun f => f.1 - 1)).nodup_iff).mp hnd) buf]

theorem insertSegments_withIds :
    ∀ (ps : List (List Nat)) (pre : List (Option (List Nat))),
      insertSegments (pre ++ List.replicate ps.length none) (withIds (pre.length + 1) ps) =
        pre ++ ps.map some := by
  intro ps
  induction ps with
  | nil => intro pre; simp [insertSegments, withIds]
  | cons p ps ih =>
    intro pre
    simp only [withIds, List.length_cons, List.replicate_succ]
    rw [insertSegments_cons]
    have hset : ((pre ++ none :: List.replicate ps.length none).set
        ((pre.length + 1, p).1 - 1) (some (pre.length + 1, p).2)) =
        (pre ++ [some p]) ++ List.replicate ps.length none := by
      simp only [Nat.add_sub_cancel]
      rw [List.set_append_right _ _ (le_refl pre.length)]
      simp
    rw [hset]
    have := ih (pre ++ [some p])
    simp only [List.length_append, List.length_cons, List.length_nil] at this
    rw [this]
    simp

theorem count_none_set_ge (x : List Nat) :
    ∀ (buf : List (Option (List Nat))) (i : Nat),
      buf.count none ≤ (buf.set i (some x)).count none + 1 := by
  intro buf
  induction buf with
  | nil => intro i; simp
  | cons b rest ih =>
    intro i
    match i with
    | 0 =>
      simp only [List.set_cons_zero]
      cases b <;> simp [List.count_cons] <;> omega
    | i + 1 =>
      simp only [List.set_cons_succ]
      have := ih i
      cases b <;> simp [List.count_cons] <;> omega

theorem count_none_insertSegments (fs : List (Nat × List Nat)) :
    ∀ buf : List (Option (List Nat)),
      buf.count none ≤ (insertSegments buf fs).count none + fs.length := by
  induction fs with
  | nil => intro buf; simp [insertSegments_nil]
  | cons f fs ih =>
    intro buf
    have h1 := count_none_set_ge f.2 buf (f.1 - 1)
    have h2 := ih (buf.set (f.1 - 1) (some f.2))
    rw [insertSegments_cons]
    simp only [List.length_cons]
    omega

theorem recvLoop_complete (oq : Bool) (my other : Nat)
    (buf : List (Option (List Nat))) (msgs : List (List Nat)) (h : none ∉ buf) :
    recvLoop oq my other buf msgs = (buf, [], .completed) := by
  cases msgs with
  | nil => rw [recvLoop, if_pos h]
  | cons m rest => rw [recvLoop, if_pos h]

theorem recvLoop_nil_incomplete (oq : Bool) (my other : Nat)
    (buf : List (Option (List Nat))) (h : none ∈ buf) :
    recvLoop oq my other buf [] = (buf, [], .exhausted) := by
  rw [recvLoop, if_neg (not_not_intro h)]

theorem recvLoop_data_cons (oq : Bool) (my other : Nat)
    (buf : List (Option (List Nat))) (msg : List Nat) (rest : List (List Nat))
    (h : none ∈ buf) (h1 : is_abort_frame msg = false) (h2 : is_rts_frame msg = false)
    (h3 : is_conn_frame msg = false) (h4 : is_data_frame msg = true) :
    recvLoop oq my other buf (msg :: rest) =
      recvLoop oq my other
        (buf.set ((parse_data_frame msg).segment_id - 1)
          (some (parse_data_frame msg).segment_data)) rest := by
  rw [recvLoop, if_neg (not_not_intro h)]
  simp [h1, h2, h3, h4]

theorem dataBuffer_not_conn (src dst id : Nat) (p : List Nat) :
    is_conn_frame (DataFrame.to_buffer ⟨src, dst, id, p⟩) = false := by
  simp [is_conn_frame, DataFrame.to_buffer, MGMT_PID, DAT_PID]

theorem dataBuffer_not_abort (src dst id : Nat) (p : List Nat) :
    is_abort_frame (DataFrame.to_buffer ⟨src, dst, id, p⟩) = false := by
  simp [is_abort_frame, dataBuffer_not_conn]

theorem dataBuffer_not_rts (src dst id : Nat) (p : List Nat) :
    is_rts_frame (DataFrame.to_buffer ⟨src, dst, id, p⟩) = false := by
  simp [is_rts_frame, dataBuffer_not_conn]

theorem dataBuffer_is_data (src dst id : Nat) (p : List Nat) (hp : p ≠ []) :
    is_data_frame (DataFrame.to_buffer ⟨src, dst, id, p⟩) = true := by
  have h1 : 1 ≤ p.length := List.length_pos.mpr hp
  simp [is_data_frame, DataFrame.to_buffer, DAT_PID]
  omega

theorem parse_dataBuffer (src dst id : Nat) (p : List Nat) :
    parse_data_frame (DataFrame.to_buffer ⟨src, dst, id, p⟩) = ⟨src, dst, id, p⟩ := rfl

theorem recvLoop_all_data (oq : Bool) (my other src dst : Nat) :
    ∀ (fs : List (Nat × List Nat)) (buf : List (Option (List Nat))),
      (∀ f ∈ fs, f.2 ≠ []) →
      (∀ j, j < fs.length → none ∈ insertSegments buf (fs.take j)) →
      recvLoop oq my other buf
          (fs.map (fun f => DataFrame.to_buffer ⟨src, dst, f.1, f.2⟩)) =
        (insertSegments buf fs, [],
         if none ∈ insertSegments buf fs then .exhausted else .completed) := by
  intro fs
  induction fs with
  | nil =>
    intro buf _ _
    by_cases h : none ∈ buf
    · rw [List.map_nil, insertSegments_nil, recvLoop_nil_incomplete oq my other buf h,
          if_pos h]
    · rw [List.map_nil, insertSegments_nil, recvLoop_complete oq my other buf [] h,
          if_neg h]
  | cons f fs ih =>
    intro buf hne hpre
    have hbuf : none ∈ buf := by
      have := hpre 0 (by simp)
      simpa [insertSegments_nil] using this
    have hfne : f.2 ≠ [] := hne f (by simp)
    rw [List.map_cons,
        recvLoop_data_cons oq my other buf _ _ hbuf
          (dataBuffer_not_abort src dst f.1 f.2)
          (dataBuffer_not_rts src dst f.1 f.2)
          (dataBuffer_not_conn src dst f.1 f.2)
          (dataBuffer_is_data src dst f.1 f.2 hfne),
        parse_dataBuffer]
    rw [insertSegments_cons]
    exact ih (buf.set (f.1 - 1) (some f.2)) (fun g hg => hne g (by simp [hg]))
      (fun j hj => by
        have := hpre (j + 1) (by simpa using Nat.succ_lt_succ hj)
        rw [List.take_succ_cons, insertSegments_cons] at this
        exact this)

/-- C2: a receive session created from RTS(N, L), fed the `N` data frames
bearing the segment ids `1..N` in any arrival order (payloads nonempty,
concatenating in id order to `D` with `|D| = L`), emits the initial
CTS(N, 1), stores each payload at index `segment_id - 1`, delivers exactly
the single message `[peer_mid] ++ D` (no checksum appended) to the
mailbox, and enqueues the EOM frame three times. -/
theorem C2_receive_reassembly (rsrc rdst L src dst N : Nat)
    (ps : List (List Nat)) (fs : List (Nat × List Nat))
    (hN : 1 ≤ N) (hlen : ps.length = N)
    (hperm : fs.Perm (withIds 1 ps))
    (hne : ∀ p ∈ ps, p ≠ [])
    (hL : ps.flatten.length = L) :
    recvSessionRun true (rtsBuffer rsrc rdst N L)
        (fs.map (fun f => DataFrame.to_buffer ⟨src, dst, f.1, f.2⟩)) =
      ⟨ctsBuffer rdst rsrc N 1 :: List.replicate 3 (eomBuffer rdst rsrc),
       some (rsrc :: ps.flatten), .completed⟩ := by
  have hfslen : fs.length = N := by
    rw [hperm.length_eq, withIds_length, hlen]
  have hnd : (fs.map (fun f => f.1 - 1)).Nodup := by
    have hmapperm := hperm.map (fun f => f.1 - 1)
    rw [hmapperm.nodup_iff]
    rw [show (1 : Nat) = 0 + 1 from rfl, withIds_map_pred]
    exact List.nodup_range' _ _
  have hcanon : insertSegments (List.replicate N none) fs = ps.map some := by
    rw [insertSegments_perm hperm hnd (List.replicate N none)]
    have := insertSegments_withIds ps []
    simpa [hlen] using this
  have hfne : ∀ f ∈ fs, f.2 ≠ [] := by
    intro f hf
    exact hne f.2 (withIds_mem_snd ps 1 f (hperm.mem_iff.mp hf))
  have hpre : ∀ j, j < fs.length →
      none ∈ insertSegments (List.replicate N none) (fs.take j) := by
    intro j hj
    have hlenj : (fs.take j).length = j := by
      rw [List.length_take]; omega
    have hcount := count_none_insertSegments (fs.take j) (List.replicate N none)
    rw [hlenj, List.count_replicate_self] at hcount
    have hpos : 0 < (insertSegments (List.replicate N none) (fs.take j)).count none := by
      omega
    exact List.count_pos_iff.mp hpos
  have hloop := recvLoop_all_data true rdst rsrc src dst fs (List.replicate N none) hfne hpre
  rw [hcanon] at hloop
  have hnomem : none ∉ ps.map some := by
    intro hmem
    obtain ⟨a, -, ha⟩ := List.mem_map.mp hmem
    exact Option.noConfusion ha
  rw [if_neg hnomem] at hloop
  have hparse : parse_conn_frame (rtsBuffer rsrc rdst N L) =
      some (.rts rsrc rdst N (L / 256 % 256 * 256 + L % 256)) := rfl
  rw [recvSessionRun, hparse]
  simp only [hloop, if_neg hnomem]
  simp [message_received, List.map_map, map_getD_some]

/-- Witness for C2: two segments arriving out of order (2 then 1). -/
theorem C2_receive_reassembly_witness :
    recvSessionRun true (rtsBuffer 0xac 0x80 2 3)
        ([((2 : Nat), [3]), ((1 : Nat), [1, 2])].map
          (fun f => DataFrame.to_buffer ⟨0xac, 0x80, f.1, f.2⟩)) =
      ⟨ctsBuffer 0x80 0xac 2 1 :: List.replicate 3 (eomBuffer 0x80 0xac),
       some (0xac :: ([[1, 2], [3]] : List (List Nat)).flatten), .completed⟩ :=
  C2_receive_reassembly 0xac 0x80 3 0xac 0x80 2 [[1, 2], [3]]
    [(2, [3]), (1, [1, 2])] (by decide) (by decide) (by decide) (by decide) (by decide)

/-- C5 (code bug): the inbound checksum check of `J1587WorkerThread.run`.
With `pass_invalid_messages = false` a bad-checksum frame is dropped, as
claimed.  With `pass_invalid_messages = true` the source calls
`self.message_received(msg)` without the required `has_checksum`
argument, so a `TypeError` kills the worker thread instead of the frame
being delivered: evaluated here at the frame `[0x80, 0x00, 0x00]`, whose
correct checksum byte would be `0x80`.  A valid frame goes to
`handle_message`. -/
theorem C5_invalid_checksum_path :
    worker_read_step false [0x80, 0x00, 0x00] = .dropped ∧
    worker_read_step true [0x80, 0x00, 0x00] = .crashed ∧
    worker_read_step true [0x80, 0x00, 0x80] = .toHandler [0x80, 0x00, 0x80] := by
  decide

end HvNetworks
